import Mathlib

/-!
Verification of the rainmapping pipeline: a shallow embedding of the
grid index mapper, sparse grid serializer, colorizers and raster
resampler found in extract_data.py, generate_pngs.py,
generate_pngs_fixed.py, generate_pngs_old_broken.py,
generate_overlay_images.py and process_temperature.py.
Machine floats are modelled by exact rationals.
-/

/-- Python `int()` applied to a number: truncation toward zero. -/
def pyint (q : ℚ) : ℤ := if 0 ≤ q then ⌊q⌋ else -⌊-q⌋

/-- Python `round()` to an integer: round half to even. -/
def pyround (q : ℚ) : ℤ :=
  if q - ⌊q⌋ < 1/2 then ⌊q⌋
  else if 1/2 < q - ⌊q⌋ then ⌊q⌋ + 1
  else if ⌊q⌋ % 2 = 0 then ⌊q⌋ else ⌊q⌋ + 1

/-- Python `round(v, 1)`: value rounded to one decimal place. -/
def round1 (q : ℚ) : ℚ := (pyround (q * 10) : ℚ) / 10

/-! ## Grid Index Mapper (extract_data.py lines 28-54) -/

/-- Grid extent metadata constant from extract_data.py. -/
def X_MIN : ℚ := -199500

/-- Grid extent metadata constant from extract_data.py. -/
def X_MAX : ℚ := 699500

/-- Grid extent metadata constant from extract_data.py. -/
def Y_MIN : ℚ := -199500

/-- Grid extent metadata constant from extract_data.py. -/
def Y_MAX : ℚ := 1249500

/-- Cell resolution in metres, from extract_data.py. -/
def RESOLUTION : ℚ := 1000

/-- Grid height in cells: (Y_MAX - Y_MIN) / RESOLUTION. -/
def gridHeight : ℤ := 1449

/-- Grid width in cells: (X_MAX - X_MIN) / RESOLUTION. -/
def gridWidth : ℤ := 899

/-- extract_data.py coord_to_index: col = int((x - X_MIN) / RESOLUTION),
row = int((Y_MAX - y) / RESOLUTION), returned as (row, col). -/
def coord_to_index (x y : ℚ) : ℤ × ℤ :=
  (pyint ((Y_MAX - y) / RESOLUTION), pyint ((x - X_MIN) / RESOLUTION))

/-- extract_data.py index_to_coord: the cell center
(X_MIN + (col + 0.5) * RESOLUTION, Y_MAX - (row + 0.5) * RESOLUTION). -/
def index_to_coord (row col : ℕ) : ℚ × ℚ :=
  (X_MIN + ((col : ℚ) + 1/2) * RESOLUTION, Y_MAX - ((row : ℚ) + 1/2) * RESOLUTION)

/-! ## Sparse Grid Serializer (extract_data.py lines 121-145) and the
nearest-resolution lookup used by the PNG generators
(generate_pngs_fixed.py lines 124-133). -/

/-- A two-level sparse grid, mirroring the JSON object
easting key to (northing key to value).  Keys are the integers that the
Python code converts to strings; string conversion of distinct integers
is injective, so the integers themselves serve as keys. -/
abbrev Sparse2 := ℤ → Option (ℤ → Option ℚ)

/-- The empty sparse grid, as created by `month_data = {}`. -/
def emptySparse2 : Sparse2 := fun _ => none

/-- Dictionary read `m[x][y]`, guarded like the generators guard it:
present only if the outer key and then the inner key are present. -/
def dictGet2 (m : Sparse2) (x y : ℤ) : Option ℚ :=
  match m x with
  | some inner => inner y
  | none => none

/-- Dictionary write `m[x][y] = v`, creating the inner dictionary when
the outer key is absent, as in process_variable. -/
def dictSet2 (m : Sparse2) (x y : ℤ) (v : ℚ) : Sparse2 :=
  fun a =>
    if a = x then
      some (fun b =>
        if b = y then some v
        else
          match m x with
          | some inner => inner b
          | none => none)
    else m a

/-- A dense raster frame for one month: cell (row, col) either holds a
value or is missing (NaN). -/
abbrev Frame := ℕ → ℕ → Option ℚ

/-- All cells of an h-by-w frame in row-major order, as produced by
np.where over the dense array. -/
def cellList (h w : ℕ) : List (ℕ × ℕ) := (List.range h) ×ˢ (List.range w)

/-- One step of the serialization loop in process_variable: a non-missing
cell is stored under the integer coordinates of its cell center, with the
value rounded to one decimal place; a missing cell is skipped. -/
def serializeStep (frame : Frame) (m : Sparse2) (rc : ℕ × ℕ) : Sparse2 :=
  match frame rc.1 rc.2 with
  | some v =>
      dictSet2 m (pyint (index_to_coord rc.1 rc.2).1)
        (pyint (index_to_coord rc.1 rc.2).2) (round1 v)
  | none => m

/-- The sparse serialization of a frame (process_variable lines 121-140). -/
def serializeFrame (frame : Frame) (h w : ℕ) : Sparse2 :=
  (cellList h w).foldl (serializeStep frame) emptySparse2

/-- The lookup performed by the PNG generators: round each projected
coordinate to the nearest multiple of the 1000 m resolution, then do the
two-level key lookup (generate_pngs_fixed.py lines 126-133). -/
def lookupKeyed (m : Sparse2) (bx bY : ℚ) : Option ℚ :=
  dictGet2 m (pyround (bx / 1000) * 1000) (pyround (bY / 1000) * 1000)

/-! ## Colorizers: sequential temperature scale
(generate_pngs_fixed.py lines 29-32 and 85-90, generate_pngs.py lines
65-70, generate_overlay_images.py lines 74-80) and bivariate rain/sun
classification (generate_pngs_fixed.py lines 35-39 and 92-96). -/

/-- The 10-entry temperature palette TEMP_COLORS of the PNG generators. -/
def TEMP_COLORS : List (ℕ × ℕ × ℕ) :=
  [(5, 48, 97), (33, 102, 172), (67, 147, 195), (146, 197, 222),
   (209, 229, 240), (253, 219, 199), (244, 165, 130), (214, 96, 77),
   (178, 24, 43), (103, 0, 31)]

/-- Python max(0, min(1, q)): clamp into the unit interval. -/
def clamp01 (q : ℚ) : ℚ := max 0 (min 1 q)

/-- The palette index computed by get_color_for_temp in
generate_pngs.py and generate_pngs_fixed.py:
normalized = (temp - min_t) / (max_t - min_t) with min_t = -10 and
max_t = 32, clamped to [0, 1], then idx = min(int(clamped * 9), 9). -/
def tempIdxZ (t : ℚ) : ℤ :=
  min (pyint (clamp01 ((t - (-10)) / (32 - (-10))) * (10 - 1))) (10 - 1)

/-- get_color_for_temp: the palette entry at the computed index (the
default is never used because the index always lands in [0, 9]). -/
def get_color_for_temp (t : ℚ) : ℕ × ℕ × ℕ :=
  TEMP_COLORS.getD (tempIdxZ t).toNat (0, 0, 0)

/-- The palette index computed by process_temp in
generate_overlay_images.py: the same clamped normalization but
idx = min(int(clamped * 10), 9) — multiplier len(TEMP_COLORS), not
len(TEMP_COLORS) - 1. -/
def overlayTempIdx (t : ℚ) : ℤ :=
  min (pyint (clamp01 ((t - (-10)) / (32 - (-10))) * 10)) (10 - 1)

/-- Modelled from the spec: the sequential classification formula the
claim states, idx = floor(normalized * (N - 1)) clamped to [0, N - 1],
for comparison with the source-derived indices. -/
def specSeqIdx (t : ℚ) : ℤ :=
  max 0 (min ⌊clamp01 ((t - (-10)) / (32 - (-10))) * (10 - 1)⌋ (10 - 1))

/-! ## Bivariate tertile classification and decile binning tie rules
(generate_pngs_fixed.py lines 92-96, process_temperature.py lines
124-128). -/

/-- The rain level of get_color_for_rain_sun:
0 if rain < rain33 else (1 if rain < rain66 else 2). -/
def rain_level (rain rain33 rain66 : ℚ) : ℕ :=
  if rain < rain33 then 0 else if rain < rain66 then 1 else 2

/-- The sun level of get_color_for_rain_sun:
0 if sun < sun33 else (1 if sun < sun66 else 2). -/
def sun_level (sun sun33 sun66 : ℚ) : ℕ :=
  if sun < sun33 then 0 else if sun < sun66 then 1 else 2

/-- The 3-by-3 BIVARIATE_COLORS table of generate_pngs_fixed.py, as a
function of the (rain level, sun level) pair.  The catch-all case is
unreachable because levels are always in 0..2. -/
def BIVARIATE_COLORS (k : ℕ × ℕ) : ℕ × ℕ × ℕ :=
  match k with
  | (0, 0) => (243, 243, 243)
  | (0, 1) => (243, 230, 179)
  | (0, 2) => (243, 179, 0)
  | (1, 0) => (180, 211, 225)
  | (1, 1) => (179, 179, 179)
  | (1, 2) => (179, 102, 0)
  | (2, 0) => (80, 157, 194)
  | (2, 1) => (55, 99, 135)
  | (2, 2) => (0, 0, 0)
  | _ => (0, 0, 0)

/-- get_color_for_rain_sun of generate_pngs_fixed.py. -/
def get_color_for_rain_sun (rain sun rain33 rain66 sun33 sun66 : ℚ) : ℕ × ℕ × ℕ :=
  BIVARIATE_COLORS (rain_level rain rain33 rain66, sun_level sun sun33 sun66)

/-- The decile bin loop of create_temp_rgb_array
(process_temperature.py lines 124-128): starting from bin 0, for each
enumerated breakpoint assign bin i+1 where the value is strictly
greater than the breakpoint. -/
def decileIdx (bounds : List ℚ) (v : ℚ) : ℕ :=
  (bounds.enum).foldl (fun acc p => if p.2 < v then p.1 + 1 else acc) 0

/-! ## Raster Resampler pixel mapping (generate_pngs_fixed.py lines
111-141, generate_pngs.py lines 91-96) and the vertical orientation at
write time (generate_pngs_old_broken.py lines 238-243,
process_temperature.py lines 102-138). -/

/-- Pixel row to latitude in generate_pngs_fixed.py (line 119):
lat = LAT_MAX - (row / (IMG_HEIGHT - 1)) * (LAT_MAX - LAT_MIN),
for symbolic bounds since the concrete bounds come from the external
reprojection library. -/
def pixLat (latMax latMin : ℚ) (hImg row : ℕ) : ℚ :=
  latMax - ((row : ℚ) / ((hImg : ℚ) - 1)) * (latMax - latMin)

/-- Pixel column to longitude in generate_pngs_fixed.py (line 120):
lng = LNG_MIN + (col / (IMG_WIDTH - 1)) * (LNG_MAX - LNG_MIN). -/
def pixLng (lngMin lngMax : ℚ) (wImg col : ℕ) : ℚ :=
  lngMin + ((col : ℚ) / ((wImg : ℚ) - 1)) * (lngMax - lngMin)

/-- Geographic bounds constant of generate_pngs.py (line 29): 49.5. -/
def LAT_MIN_gp : ℚ := 99/2

/-- Geographic bounds constant of generate_pngs.py (line 30): 61.0. -/
def LAT_MAX_gp : ℚ := 61

/-- Geographic bounds constant of generate_pngs.py (line 31): -8.5. -/
def LNG_MIN_gp : ℚ := -17/2

/-- Geographic bounds constant of generate_pngs.py (line 32): 2.0. -/
def LNG_MAX_gp : ℚ := 2

/-- Output image width of the PNG generators. -/
def IMG_WIDTH : ℕ := 2000

/-- Output image height of the PNG generators. -/
def IMG_HEIGHT : ℕ := 3000

/-- Pixel row to latitude in generate_pngs.py (line 95): the divisor is
IMG_HEIGHT, not IMG_HEIGHT - 1. -/
def pixLatOld (row : ℕ) : ℚ :=
  LAT_MAX_gp - ((row : ℚ) / (IMG_HEIGHT : ℚ)) * (LAT_MAX_gp - LAT_MIN_gp)

/-- Pixel column to longitude in generate_pngs.py (line 96): the divisor
is IMG_WIDTH, not IMG_WIDTH - 1. -/
def pixLngOld (col : ℕ) : ℚ :=
  LNG_MIN_gp + ((col : ℚ) / (IMG_WIDTH : ℚ)) * (LNG_MAX_gp - LNG_MIN_gp)

/-- The vertical flip np.flipud applied to a row-indexed image buffer. -/
def flipud {α : Type} (rows : List α) : List α := rows.reverse

/-- generate_pngs_fixed.py lines 138-140: the filled buffer is saved
directly, with no flip between filling and writing. -/
def save_image_fixed (img : List (List (ℕ × ℕ × ℕ × ℕ))) :
    List (List (ℕ × ℕ × ℕ × ℕ)) := img

/-- generate_pngs_old_broken.py lines 238-243: the rain/sun buffer is
flipped vertically immediately before being written. -/
def save_rain_sun_old_broken (img : List (List (ℕ × ℕ × ℕ × ℕ))) :
    List (List (ℕ × ℕ × ℕ × ℕ)) := flipud img

/-! ## Per-pixel resampling with missing-data handling
(generate_pngs_fixed.py lines 122-136 and 177-193) and the decile
temperature image of process_temperature.py (lines 102-138). -/

/-- A pluggable coordinate transform: the wgs84-to-bng reprojection,
which fails (raises) outside its domain; the except-pass in the
generators leaves the pixel untouched on failure. -/
abbrev Tfm := ℚ × ℚ → Option (ℚ × ℚ)

/-- The alpha channel of an RGBA pixel. -/
def alphaOf (p : ℕ × ℕ × ℕ × ℕ) : ℕ := p.2.2.2

/-- The per-pixel body of generate_temp_image in
generate_pngs_fixed.py: reproject (lng, lat) to BNG, round to the
nearest-km key, look up the sparse data, and write an opaque colored
pixel on success; on reprojection failure or missing data the pixel
keeps its np.zeros initialization (0, 0, 0, 0). -/
def temp_pixel (tfm : Tfm) (data : Sparse2) (lat lng : ℚ) : ℕ × ℕ × ℕ × ℕ :=
  match tfm (lng, lat) with
  | none => (0, 0, 0, 0)
  | some p =>
    match lookupKeyed data p.1 p.2 with
    | some t =>
        ((get_color_for_temp t).1, (get_color_for_temp t).2.1,
          (get_color_for_temp t).2.2, 255)
    | none => (0, 0, 0, 0)

/-- The per-pixel body of generate_rain_sun_image in
generate_pngs_fixed.py: the pixel is colored only when both the rain
and the sun lookup succeed; otherwise it keeps (0, 0, 0, 0). -/
def rain_sun_pixel (tfm : Tfm) (rain sun : Sparse2)
    (r33 r66 s33 s66 lat lng : ℚ) : ℕ × ℕ × ℕ × ℕ :=
  match tfm (lng, lat) with
  | none => (0, 0, 0, 0)
  | some p =>
    match lookupKeyed rain p.1 p.2, lookupKeyed sun p.1 p.2 with
    | some r, some s =>
        ((get_color_for_rain_sun r s r33 r66 s33 s66).1,
          (get_color_for_rain_sun r s r33 r66 s33 s66).2.1,
          (get_color_for_rain_sun r s r33 r66 s33 s66).2.2, 255)
    | _, _ => (0, 0, 0, 0)

/-- np.percentile with the default linear interpolation on a list of
values, as used by create_temp_rgb_array. -/
def npPercentile (vals : List ℚ) (q : ℚ) : ℚ :=
  let s := List.insertionSort (· ≤ ·) vals
  let pos := q / 100 * ((s.length : ℚ) - 1)
  s.getD (⌊pos⌋).toNat 0 +
    (pos - (⌊pos⌋ : ℚ)) * (s.getD ((⌊pos⌋).toNat + 1) 0 - s.getD (⌊pos⌋).toNat 0)

/-- The decile breakpoints np.percentile(valid, arange(10, 100, 10)) of
create_temp_rgb_array. -/
def decileBounds (valid : List ℚ) : List ℚ :=
  (List.range 9).map (fun i => npPercentile valid (10 * ((i : ℚ) + 1)))

/-- create_temp_rgb_array of process_temperature.py: an RGB (no alpha)
buffer, initialized to np.ones (white).  With no valid values it
returns the all-white buffer unflipped; otherwise valid cells get the
decile palette color, missing cells stay white, and the buffer is
flipped vertically before being returned (the source array is south-up;
the flip makes row 0 the north edge). -/
def create_temp_rgb_array (tv : List (List (Option ℚ)))
    (colors : List (ℚ × ℚ × ℚ)) : List (List (ℚ × ℚ × ℚ)) :=
  if ((tv.flatten).filterMap id).isEmpty then
    tv.map (fun rowL => rowL.map (fun _ => ((1 : ℚ), 1, 1)))
  else
    flipud (tv.map (fun rowL => rowL.map (fun cell =>
      match cell with
      | some v =>
          colors.getD (decileIdx (decileBounds ((tv.flatten).filterMap id)) v) (1, 1, 1)
      | none => ((1 : ℚ), 1, 1))))

/-- The palette of process_temperature.py as unit-interval RGB fractions,
matplotlib to_rgb of the TEMP_COLORS hex strings. -/
def TEMP_COLORS_RGBFRAC : List (ℚ × ℚ × ℚ) :=
  TEMP_COLORS.map (fun c => ((c.1 : ℚ)/255, (c.2.1 : ℚ)/255, (c.2.2 : ℚ)/255))

/-- One channel of (rgb_array * 255).astype(uint8). -/
def to255 (q : ℚ) : ℕ := (pyint (q * 255)).toNat

/-- Saving the RGB buffer of process_temperature.py: the three channels
are scaled to bytes and the image is written in a mode without an alpha
channel, so every written pixel is fully opaque — modelled as alpha
255 on every pixel. -/
def save_temp_image (rgb : List (List (ℚ × ℚ × ℚ))) :
    List (List (ℕ × ℕ × ℕ × ℕ)) :=
  rgb.map (fun rowL => rowL.map (fun c => (to255 c.1, to255 c.2.1, to255 c.2.2, 255)))

/-- The tertile breakpoints of generate_rain_sun_image in
generate_pngs_fixed.py (lines 154-166): sort the values, take the
elements at n//3 and (2n)//3, defaulting both to 0 when the frame has
no valid values. -/
def tertile_breaks (vals : List ℚ) : ℚ × ℚ :=
  (if 0 < vals.length then (List.insertionSort (· ≤ ·) vals).getD (vals.length / 3) 0 else 0,
   if 0 < vals.length then (List.insertionSort (· ≤ ·) vals).getD ((2 * vals.length) / 3) 0 else 0)

/-- The valid values of a frame in the row-major order np.where
enumerates them: exactly the inner values of the dictionary that
process_variable serializes, and the flattened value list that
generate_rain_sun_image builds from it.  The serialized dictionary gets
an outer key only when a valid cell exists, so the dictionary is truthy
in the Python sense exactly when this list is nonempty. -/
def validCells (frame : Frame) (h w : ℕ) : List ℚ :=
  (cellList h w).filterMap (fun rc => frame rc.1 rc.2)

/-- generate_rain_sun_image of generate_pngs_fixed.py for one month,
reading frames through the serialized dictionaries (lines 147-198):
when either loaded dictionary is falsy — which for serialized data
means the frame has no valid values (an absent file takes the same
branch) — the month is skipped and no image is produced (none);
otherwise the tertile breakpoints are computed from the flattened
values of each dictionary and every pixel is resampled through
rain_sun_pixel. -/
def rain_sun_month (tfm : Tfm) (frameR frameS : Frame) (h w : ℕ) :
    Option (ℚ → ℚ → ℕ × ℕ × ℕ × ℕ) :=
  if (validCells frameR h w).isEmpty || (validCells frameS h w).isEmpty then none
  else
    some (fun lat lng =>
      rain_sun_pixel tfm (serializeFrame frameR h w) (serializeFrame frameS h w)
        (tertile_breaks (validCells frameR h w)).1
        (tertile_breaks (validCells frameR h w)).2
        (tertile_breaks (validCells frameS h w)).1
        (tertile_breaks (validCells frameS h w)).2 lat lng)

/-!
## Theorems

Helper lemmas first, then one theorem per claim with its witness or
counterexample.
-/

theorem pyint_of_nonneg (q : ℚ) (h : 0 ≤ q) : pyint q = ⌊q⌋ := if_pos h

theorem pyint_intCast (n : ℤ) : pyint (n : ℚ) = n := by
  unfold pyint
  split
  · exact Int.floor_intCast n
  · rw [show -((n : ℚ)) = ((-n : ℤ) : ℚ) by push_cast; ring, Int.floor_intCast]
    ring

theorem pyround_intCast (n : ℤ) : pyround (n : ℚ) = n := by
  unfold pyround
  rw [Int.floor_intCast]
  have h : (n : ℚ) - n = 0 := by ring
  rw [h]
  norm_num

theorem floor_add_half (n : ℕ) : ⌊(n : ℚ) + 1/2⌋ = n := by
  rw [Int.floor_eq_iff]
  constructor
  · push_cast; linarith
  · push_cast; linarith

/-- C4: converting a cell index within the extent to its cell-center
coordinate and converting that coordinate back recovers the original
cell index. -/
theorem C4_index_round_trip (row col : ℕ) (_hr : row < 1449) (_hc : col < 899) :
    coord_to_index (index_to_coord row col).1 (index_to_coord row col).2 =
      ((row : ℤ), (col : ℤ)) := by
  unfold coord_to_index index_to_coord
  have hx : ((X_MIN + ((col : ℚ) + 1/2) * RESOLUTION) - X_MIN) / RESOLUTION
      = (col : ℚ) + 1/2 := by
    unfold X_MIN RESOLUTION
    ring
  have hy : (Y_MAX - (Y_MAX - ((row : ℚ) + 1/2) * RESOLUTION)) / RESOLUTION
      = (row : ℚ) + 1/2 := by
    unfold Y_MAX RESOLUTION
    ring
  simp only [hx, hy]
  have hxpos : (0 : ℚ) ≤ (col : ℚ) + 1/2 := by positivity
  have hypos : (0 : ℚ) ≤ (row : ℚ) + 1/2 := by positivity
  rw [pyint_of_nonneg _ hxpos, pyint_of_nonneg _ hypos,
    floor_add_half, floor_add_half]

/-- Witness for C4 at the cell (row, col) = (3, 5). -/
theorem C4_index_round_trip_witness :
    (3 : ℕ) < 1449 ∧ (5 : ℕ) < 899 ∧
      coord_to_index (index_to_coord 3 5).1 (index_to_coord 3 5).2 = ((3 : ℤ), (5 : ℤ)) :=
  ⟨by norm_num, by norm_num, C4_index_round_trip 3 5 (by norm_num) (by norm_num)⟩

/-- C8 counterexample: the out-of-extent input (x, y) = (-200000, 1249000),
with x strictly below X_MIN, is mapped by coord_to_index to (0, 0), which
lies inside [0, height) x [0, width): Python int() truncates toward zero,
so -0.5 becomes 0 rather than floor -1. -/
theorem C8_out_of_extent_counterexample :
    ((-200000 : ℚ) < X_MIN) ∧
      coord_to_index (-200000) 1249000 = (0, 0) ∧
      ((0 : ℤ) ≤ 0 ∧ (0 : ℤ) < gridHeight ∧ (0 : ℤ) ≤ 0 ∧ (0 : ℤ) < gridWidth) := by
  refine ⟨by norm_num [X_MIN], ?_, by norm_num [gridHeight, gridWidth]⟩
  have h0 : ⌊((0 : ℕ) : ℚ) + 1/2⌋ = ((0 : ℕ) : ℤ) := floor_add_half 0
  norm_num at h0
  unfold coord_to_index X_MIN Y_MAX RESOLUTION pyint
  rw [show (1249500 - 1249000 : ℚ) / 1000 = 1/2 by norm_num,
    show ((-200000 : ℚ) - -199500) / 1000 = -(1/2) by norm_num]
  norm_num [h0]

/-- C8 amended: coord_to_index computes col and row by truncation toward
zero of (x - x_min)/resolution and (y_max - y)/resolution, which agrees
with the floor whenever the quotient is nonnegative (x at or east of
x_min, y at or south of y_max); it has no error conditions; inputs east
of x_max or south of y_min, and inputs at least one full resolution west
of x_min or north of y_max, yield indices outside
[0, height) x [0, width); but an input strictly less than one resolution
west of x_min (or north of y_max) truncates to index 0, which is inside
the range. -/
theorem C8_coord_to_index_behavior :
    (∀ x y : ℚ, X_MIN ≤ x → (coord_to_index x y).2 = ⌊(x - X_MIN) / RESOLUTION⌋) ∧
    (∀ x y : ℚ, y ≤ Y_MAX → (coord_to_index x y).1 = ⌊(Y_MAX - y) / RESOLUTION⌋) ∧
    (∀ x y : ℚ, X_MAX < x → gridWidth ≤ (coord_to_index x y).2) ∧
    (∀ x y : ℚ, y < Y_MIN → gridHeight ≤ (coord_to_index x y).1) ∧
    (∀ x y : ℚ, x ≤ X_MIN - RESOLUTION → (coord_to_index x y).2 < 0) ∧
    (∀ x y : ℚ, Y_MAX + RESOLUTION ≤ y → (coord_to_index x y).1 < 0) := by
  refine ⟨?_, ?_, ?_, ?_, ?_, ?_⟩
  · intro x y hx
    unfold coord_to_index
    exact pyint_of_nonneg _ (div_nonneg (by unfold X_MIN at *; linarith)
      (by norm_num [RESOLUTION]))
  · intro x y hy
    unfold coord_to_index
    exact pyint_of_nonneg _ (div_nonneg (by unfold Y_MAX at *; linarith)
      (by norm_num [RESOLUTION]))
  · intro x y hx
    unfold coord_to_index
    unfold X_MAX at hx
    have hnn : (0 : ℚ) ≤ (x - X_MIN) / RESOLUTION :=
      div_nonneg (by unfold X_MIN; linarith) (by norm_num [RESOLUTION])
    rw [pyint_of_nonneg _ hnn]
    have : (899 : ℚ) ≤ (x - X_MIN) / RESOLUTION := by
      unfold X_MIN RESOLUTION
      rw [le_div_iff₀ (by norm_num)]
      linarith
    unfold gridWidth
    exact_mod_cast Int.le_floor.mpr (by exact_mod_cast this)
  · intro x y hy
    unfold coord_to_index
    unfold Y_MIN at hy
    have hnn : (0 : ℚ) ≤ (Y_MAX - y) / RESOLUTION :=
      div_nonneg (by unfold Y_MAX; linarith) (by norm_num [RESOLUTION])
    rw [pyint_of_nonneg _ hnn]
    have : (1449 : ℚ) ≤ (Y_MAX - y) / RESOLUTION := by
      unfold Y_MAX RESOLUTION
      rw [le_div_iff₀ (by norm_num)]
      linarith
    unfold gridHeight
    exact_mod_cast Int.le_floor.mpr (by exact_mod_cast this)
  · intro x y hx
    unfold coord_to_index pyint
    have hneg : (x - X_MIN) / RESOLUTION ≤ -1 := by
      unfold X_MIN RESOLUTION at *
      rw [div_le_iff₀ (by norm_num)]
      linarith
    have hnotnn : ¬ (0 : ℚ) ≤ (x - X_MIN) / RESOLUTION := by linarith
    simp only [hnotnn, if_false]
    have : (1 : ℚ) ≤ -((x - X_MIN) / RESOLUTION) := by linarith
    have hfl : (1 : ℤ) ≤ ⌊-((x - X_MIN) / RESOLUTION)⌋ :=
      Int.le_floor.mpr (by exact_mod_cast this)
    omega
  · intro x y hy
    unfold coord_to_index pyint
    have hneg : (Y_MAX - y) / RESOLUTION ≤ -1 := by
      unfold Y_MAX RESOLUTION at *
      rw [div_le_iff₀ (by norm_num)]
      linarith
    have hnotnn : ¬ (0 : ℚ) ≤ (Y_MAX - y) / RESOLUTION := by linarith
    simp only [hnotnn, if_false]
    have : (1 : ℚ) ≤ -((Y_MAX - y) / RESOLUTION) := by linarith
    have hfl : (1 : ℤ) ≤ ⌊-((Y_MAX - y) / RESOLUTION)⌋ :=
      Int.le_floor.mpr (by exact_mod_cast this)
    omega

/-- Witness for C8 amended, instantiated at concrete in- and out-of-extent
coordinates. -/
theorem C8_coord_to_index_behavior_witness :
    (coord_to_index 0 0).2 = ⌊((0 : ℚ) - X_MIN) / RESOLUTION⌋ ∧
      gridWidth ≤ (coord_to_index 700000 0).2 ∧
      (coord_to_index (-201000) 0).2 < 0 :=
  ⟨C8_coord_to_index_behavior.1 0 0 (by norm_num [X_MIN]),
   C8_coord_to_index_behavior.2.2.1 700000 0 (by norm_num [X_MAX]),
   C8_coord_to_index_behavior.2.2.2.2.1 (-201000) 0
     (by norm_num [X_MIN, RESOLUTION])⟩

theorem center_x_int (row col : ℕ) :
    (index_to_coord row col).1 = ((-199000 + 1000 * (col : ℤ) : ℤ) : ℚ) := by
  unfold index_to_coord X_MIN RESOLUTION
  push_cast
  ring

theorem center_y_int (row col : ℕ) :
    (index_to_coord row col).2 = ((1249000 - 1000 * (row : ℤ) : ℤ) : ℚ) := by
  unfold index_to_coord Y_MAX RESOLUTION
  push_cast
  ring

theorem pyint_center_x (row col : ℕ) :
    pyint (index_to_coord row col).1 = -199000 + 1000 * (col : ℤ) := by
  rw [center_x_int, pyint_intCast]

theorem pyint_center_y (row col : ℕ) :
    pyint (index_to_coord row col).2 = 1249000 - 1000 * (row : ℤ) := by
  rw [center_y_int, pyint_intCast]

/-- Rounding the exact cell-center easting to the nearest multiple of the
resolution recovers the stored key. -/
theorem query_key_x (row col : ℕ) :
    pyround ((index_to_coord row col).1 / 1000) * 1000 =
      pyint (index_to_coord row col).1 := by
  rw [center_x_int, pyint_intCast]
  have h : ((-199000 + 1000 * (col : ℤ) : ℤ) : ℚ) / 1000 =
      (((-199 : ℤ) + (col : ℤ) : ℤ) : ℚ) := by
    push_cast
    ring
  rw [h, pyround_intCast]
  ring

/-- Rounding the exact cell-center northing to the nearest multiple of the
resolution recovers the stored key. -/
theorem query_key_y (row col : ℕ) :
    pyround ((index_to_coord row col).2 / 1000) * 1000 =
      pyint (index_to_coord row col).2 := by
  rw [center_y_int, pyint_intCast]
  have h : ((1249000 - 1000 * (row : ℤ) : ℤ) : ℚ) / 1000 =
      (((1249 : ℤ) - (row : ℤ) : ℤ) : ℚ) := by
    push_cast
    ring
  rw [h, pyround_intCast]
  ring

theorem dictGet2_set_eq (m : Sparse2) (x y : ℤ) (v : ℚ) :
    dictGet2 (dictSet2 m x y v) x y = some v := by
  unfold dictGet2 dictSet2
  simp

theorem dictGet2_set_ne (m : Sparse2) (x y x' y' : ℤ) (v : ℚ)
    (hne : x' ≠ x ∨ y' ≠ y) :
    dictGet2 (dictSet2 m x y v) x' y' = dictGet2 m x' y' := by
  unfold dictGet2 dictSet2
  by_cases hx : x' = x
  · subst hx
    have hy : y' ≠ y := hne.resolve_left (by simp)
    rw [if_pos rfl]
    show (if y' = y then some v
        else match m x' with | some inner => inner y' | none => none) =
      (match m x' with | some inner => inner y' | none => none)
    rw [if_neg hy]
  · simp only [if_neg hx]

theorem fold_get_ne (frame : Frame) (cells : List (ℕ × ℕ)) (m : Sparse2)
    (row col : ℕ) (h : ∀ rc ∈ cells, rc ≠ (row, col)) :
    dictGet2 (cells.foldl (serializeStep frame) m)
        (pyint (index_to_coord row col).1) (pyint (index_to_coord row col).2) =
      dictGet2 m (pyint (index_to_coord row col).1)
        (pyint (index_to_coord row col).2) := by
  induction cells generalizing m with
  | nil => rfl
  | cons rc t ih =>
    rw [List.foldl_cons]
    rw [ih _ (fun rc' hrc' => h rc' (List.mem_cons_of_mem rc hrc'))]
    have hrc : rc ≠ (row, col) := h rc (List.mem_cons_self rc t)
    unfold serializeStep
    cases hf : frame rc.1 rc.2 with
    | none => rfl
    | some v =>
      apply dictGet2_set_ne
      by_cases h2 : rc.2 = col
      · have h1 : rc.1 ≠ row := by
          intro h1
          exact hrc (Prod.ext h1 h2)
        right
        rw [pyint_center_y, pyint_center_y]
        intro hcontra
        apply h1
        omega
      · left
        rw [pyint_center_x, pyint_center_x]
        intro hcontra
        apply h2
        omega

theorem fold_get_hit (frame : Frame) (cells : List (ℕ × ℕ)) (m : Sparse2)
    (row col : ℕ) (v : ℚ) (hv : frame row col = some v)
    (hmem : (row, col) ∈ cells) :
    dictGet2 (cells.foldl (serializeStep frame) m)
        (pyint (index_to_coord row col).1) (pyint (index_to_coord row col).2) =
      some (round1 v) := by
  induction cells generalizing m with
  | nil => exact absurd hmem (List.not_mem_nil _)
  | cons rc t ih =>
    rw [List.foldl_cons]
    by_cases hmem' : (row, col) ∈ t
    · exact ih _ hmem'
    · have hrc : rc = (row, col) := by
        rcases List.mem_cons.mp hmem with h | h
        · exact h.symm
        · exact absurd h hmem'
      subst hrc
      have hall : ∀ rc' ∈ t, rc' ≠ (row, col) := by
        intro rc' hrc' hcontra
        exact hmem' (hcontra ▸ hrc')
      rw [fold_get_ne frame t _ row col hall]
      unfold serializeStep
      simp only [hv]
      exact dictGet2_set_eq _ _ _ _

theorem fold_get_none (frame : Frame) (cells : List (ℕ × ℕ)) (m : Sparse2)
    (X Y : ℤ) (hm : dictGet2 m X Y = none)
    (h : ∀ rc ∈ cells, frame rc.1 rc.2 ≠ none →
      pyint (index_to_coord rc.1 rc.2).1 ≠ X ∨
        pyint (index_to_coord rc.1 rc.2).2 ≠ Y) :
    dictGet2 (cells.foldl (serializeStep frame) m) X Y = none := by
  induction cells generalizing m with
  | nil => exact hm
  | cons rc t ih =>
    rw [List.foldl_cons]
    apply ih
    · unfold serializeStep
      cases hf : frame rc.1 rc.2 with
      | none => exact hm
      | some v =>
        show dictGet2 (dictSet2 m (pyint (index_to_coord rc.1 rc.2).1)
          (pyint (index_to_coord rc.1 rc.2).2) (round1 v)) X Y = none
        have hne := h rc (List.mem_cons_self rc t)
          (by rw [hf]; exact Option.some_ne_none v)
        rw [dictGet2_set_ne _ _ _ _ _ _ (hne.imp Ne.symm Ne.symm)]
        exact hm
    · intro rc' hrc'
      exact h rc' (List.mem_cons_of_mem rc hrc')

theorem mem_cellList (h w row col : ℕ) :
    (row, col) ∈ cellList h w ↔ row < h ∧ col < w := by
  unfold cellList
  rw [List.mem_product, List.mem_range, List.mem_range]

/-- C5: serializing a frame to the two-level sparse structure and looking
up an originally-valid cell at its exact cell-center coordinate, with the
nearest-resolution rounding the generators apply, returns that cell value
rounded to one decimal place; and a query whose rounded key matches no
valid source cell returns nothing (NotFound). -/
theorem C5_sparse_serialize_round_trip (frame : Frame) (h w : ℕ) :
    (∀ (row col : ℕ) (v : ℚ), row < h → col < w → frame row col = some v →
      lookupKeyed (serializeFrame frame h w)
          (index_to_coord row col).1 (index_to_coord row col).2 =
        some (round1 v)) ∧
    (∀ x y : ℚ,
      (∀ row col : ℕ, row < h → col < w → frame row col ≠ none →
        pyint (index_to_coord row col).1 ≠ pyround (x / 1000) * 1000 ∨
          pyint (index_to_coord row col).2 ≠ pyround (y / 1000) * 1000) →
      lookupKeyed (serializeFrame frame h w) x y = none) := by
  constructor
  · intro row col v hr hc hv
    unfold lookupKeyed serializeFrame
    rw [query_key_x, query_key_y]
    exact fold_get_hit frame _ _ row col v hv ((mem_cellList h w row col).mpr ⟨hr, hc⟩)
  · intro x y hkeys
    unfold lookupKeyed serializeFrame
    apply fold_get_none
    · rfl
    · intro rc hrc hval
      have hmem := (mem_cellList h w rc.1 rc.2).mp (by simpa using hrc)
      exact hkeys rc.1 rc.2 hmem.1 hmem.2 hval

/-- Witness for C5: a concrete 1-by-1 frame holding value 1.25 at cell
(0, 0).  Serialization stores 1.2 (round half to even at the stored
precision) under the key of the cell center (-199000, 1249000); looking
the cell center up returns 1.2, and a query at (0, 0), whose key matches
no cell, returns nothing. -/
theorem C5_sparse_serialize_round_trip_witness :
    ((0 : ℕ) < 1 ∧ (fun (_ _ : ℕ) => some ((5 : ℚ)/4)) 0 0 = some ((5 : ℚ)/4) ∧
      lookupKeyed (serializeFrame (fun _ _ => some ((5 : ℚ)/4)) 1 1)
          (index_to_coord 0 0).1 (index_to_coord 0 0).2 = some (round1 ((5 : ℚ)/4))) ∧
      lookupKeyed (serializeFrame (fun _ _ => some ((5 : ℚ)/4)) 1 1) 0 0 = none := by
  constructor
  · refine ⟨by norm_num, rfl, ?_⟩
    exact (C5_sparse_serialize_round_trip (fun _ _ => some ((5 : ℚ)/4)) 1 1).1
      0 0 ((5 : ℚ)/4) (by norm_num) (by norm_num) rfl
  · apply (C5_sparse_serialize_round_trip (fun _ _ => some ((5 : ℚ)/4)) 1 1).2
    intro row col hr hc _
    left
    rw [pyint_center_x]
    have hc0 : col = 0 := by omega
    have hr0 : row = 0 := by omega
    subst hc0
    subst hr0
    rw [show ((0 : ℚ) / 1000) = (((0 : ℤ)) : ℚ) by norm_num, pyround_intCast]
    norm_num

theorem clamp01_nonneg (q : ℚ) : 0 ≤ clamp01 q := le_max_left 0 _

theorem clamp01_le_one (q : ℚ) : clamp01 q ≤ 1 := by
  unfold clamp01
  rw [max_le_iff]
  exact ⟨by norm_num, min_le_left 1 q⟩

/-- C6 amended: get_color_for_temp (generate_pngs.py and
generate_pngs_fixed.py) computes exactly the claimed index
floor(normalized * (N-1)) clamped to [0, N-1], and a value of 15.0
yields palette index 5 there; process_temp in
generate_overlay_images.py instead computes
min(floor(normalized * N), N-1), which also yields index 5 for 15.0. -/
theorem C6_sequential_scale :
    (∀ t : ℚ, tempIdxZ t = specSeqIdx t) ∧
      tempIdxZ 15 = 5 ∧ get_color_for_temp 15 = (253, 219, 199) ∧
      overlayTempIdx 15 = 5 := by
  have hmain : ∀ t : ℚ, tempIdxZ t = specSeqIdx t := by
    intro t
    unfold tempIdxZ specSeqIdx
    have hc : 0 ≤ clamp01 ((t - (-10)) / (32 - (-10))) * (10 - 1) := by
      have := clamp01_nonneg ((t - (-10)) / (32 - (-10)))
      nlinarith
    rw [pyint_of_nonneg _ hc]
    have hfl : 0 ≤ ⌊clamp01 ((t - (-10)) / (32 - (-10))) * (10 - 1)⌋ :=
      Int.floor_nonneg.mpr hc
    omega
  have h15 : tempIdxZ 15 = 5 := by
    unfold tempIdxZ
    rw [show clamp01 (((15 : ℚ) - (-10)) / (32 - (-10))) = 25/42 by
      unfold clamp01; norm_num]
    rw [show ((25 : ℚ)/42) * (10 - 1) = 75/14 by norm_num]
    rw [pyint_of_nonneg _ (by norm_num)]
    rw [show ⌊(75 : ℚ)/14⌋ = 5 by
      rw [Int.floor_eq_iff]
      constructor <;> norm_num]
    norm_num
  refine ⟨hmain, h15, ?_, ?_⟩
  · unfold get_color_for_temp
    rw [h15]
    rfl
  · unfold overlayTempIdx
    rw [show clamp01 (((15 : ℚ) - (-10)) / (32 - (-10))) = 25/42 by
      unfold clamp01; norm_num]
    rw [show ((25 : ℚ)/42) * 10 = 125/21 by norm_num]
    rw [pyint_of_nonneg _ (by norm_num)]
    rw [show ⌊(125 : ℚ)/21⌋ = 5 by
      rw [Int.floor_eq_iff]
      constructor <;> norm_num]
    norm_num

/-- C6 counterexample: at the value 29.9 the colorizer of
generate_overlay_images.py returns palette index 9, while the claimed
formula floor(normalized * (N-1)) gives 8 — so that colorizer does not
map every value by the claimed formula. -/
theorem C6_overlay_index_counterexample :
    overlayTempIdx (299/10) = 9 ∧ specSeqIdx (299/10) = 8 := by
  have hcl : clamp01 (((299 : ℚ)/10 - (-10)) / (32 - (-10))) = 19/20 := by
    unfold clamp01; norm_num
  constructor
  · unfold overlayTempIdx
    rw [hcl, show ((19 : ℚ)/20) * 10 = 19/2 by norm_num,
      pyint_of_nonneg _ (by norm_num),
      show ⌊(19 : ℚ)/2⌋ = 9 by
        rw [Int.floor_eq_iff]
        constructor <;> norm_num]
    norm_num
  · unfold specSeqIdx
    rw [hcl, show ((19 : ℚ)/20) * (10 - 1) = 171/20 by norm_num,
      show ⌊(171 : ℚ)/20⌋ = 8 by
        rw [Int.floor_eq_iff]
        constructor <;> norm_num]
    norm_num

/-- C10: for every input value, the temperature colorizer index lies in
[0, 9] and the returned color is an entry of the 10-entry palette, so
the palette access never goes out of range. -/
theorem C10_palette_access_safe (t : ℚ) :
    0 ≤ tempIdxZ t ∧ tempIdxZ t ≤ 9 ∧ get_color_for_temp t ∈ TEMP_COLORS := by
  have hc : 0 ≤ clamp01 ((t - (-10)) / (32 - (-10))) * (10 - 1) := by
    have := clamp01_nonneg ((t - (-10)) / (32 - (-10)))
    nlinarith
  have h0 : 0 ≤ tempIdxZ t := by
    unfold tempIdxZ
    rw [pyint_of_nonneg _ hc]
    have := Int.floor_nonneg.mpr hc
    omega
  have h9 : tempIdxZ t ≤ 9 := by
    unfold tempIdxZ
    omega
  refine ⟨h0, h9, ?_⟩
  have hlt : (tempIdxZ t).toNat < TEMP_COLORS.length := by
    unfold TEMP_COLORS
    simp only [List.length]
    omega
  unfold get_color_for_temp
  rw [List.getD_eq_getElem TEMP_COLORS (0, 0, 0) hlt]
  exact List.getElem_mem hlt

theorem decile_foldl_const (v : ℚ) (bs : List ℚ) :
    ∀ (n acc : ℕ), (∀ b ∈ bs, ¬ b < v) →
      (List.enumFrom n bs).foldl
        (fun acc p => if p.2 < v then p.1 + 1 else acc) acc = acc := by
  induction bs with
  | nil => intro n acc _; rfl
  | cons b t ih =>
    intro n acc hall
    rw [List.enumFrom_cons, List.foldl_cons]
    rw [if_neg (hall b (List.mem_cons_self b t))]
    exact ih (n + 1) acc (fun b' hb' => hall b' (List.mem_cons_of_mem b hb'))

/-- C7 corrected tie rules: in the bivariate classifier a value exactly
equal to the lower (or upper) breakpoint is assigned to the bucket above
the breakpoint, because the test is a strict value < breakpoint; in the
decile binning a value equal to every breakpoint at or above it stays in
the bottom bin, because the test there is value > breakpoint.  The two
tie rules are therefore opposite, not consistent. -/
theorem C7_tie_rules (b33 b66 v : ℚ) (bs : List ℚ) :
    (v = b33 → b33 < b66 → rain_level v b33 b66 = 1) ∧
    (v = b66 → b33 ≤ b66 → rain_level v b33 b66 = 2) ∧
    (v = b33 → b33 < b66 → sun_level v b33 b66 = 1) ∧
    ((∀ b ∈ bs, v ≤ b) → decileIdx bs v = 0) := by
  refine ⟨?_, ?_, ?_, ?_⟩
  · intro hv hlt
    subst hv
    unfold rain_level
    rw [if_neg (lt_irrefl v), if_pos hlt]
  · intro hv hle
    subst hv
    unfold rain_level
    rw [if_neg (not_lt.mpr hle), if_neg (lt_irrefl v)]
  · intro hv hlt
    subst hv
    unfold sun_level
    rw [if_neg (lt_irrefl v), if_pos hlt]
  · intro hall
    unfold decileIdx
    rw [show bs.enum = List.enumFrom 0 bs from rfl]
    exact decile_foldl_const v bs 0 0 (fun b hb => not_lt.mpr (hall b hb))

/-- Witness for C7 corrected, at breakpoints (1, 2), tied values 1 and
2, and breakpoint list [1, 2]. -/
theorem C7_tie_rules_witness :
    rain_level 1 1 2 = 1 ∧ rain_level 2 1 2 = 2 ∧ sun_level 1 1 2 = 1 ∧
      decileIdx [1, 2] 1 = 0 :=
  ⟨(C7_tie_rules 1 2 1 [1, 2]).1 rfl (by norm_num),
   (C7_tie_rules 1 2 2 [1, 2]).2.1 rfl (by norm_num),
   (C7_tie_rules 1 2 1 [1, 2]).2.2.1 rfl (by norm_num),
   (C7_tie_rules 1 2 1 [1, 2]).2.2.2 (by
     intro b hb
     rcases List.mem_cons.mp hb with h | h
     · rw [h]
     · rw [List.mem_singleton.mp h]; norm_num)⟩

/-- C7 counterexample: with tertile breakpoints 5 and 10, the value 5 —
exactly equal to the lower breakpoint — is assigned rain level 1, the
bucket above the breakpoint, not the lower bucket; with the same
breakpoints the decile loop leaves the tied value 5 in the bottom bin 0.
The claimed lower-bucket tie rule is false for the bivariate classifier
and the tie rule is not consistent across the two classifiers. -/
theorem C7_tie_rule_counterexample :
    rain_level 5 5 10 = 1 ∧ (1 : ℕ) ≠ 0 ∧ decileIdx [5, 10] 5 = 0 := by
  refine ⟨?_, by norm_num, ?_⟩
  · unfold rain_level
    rw [if_neg (lt_irrefl (5 : ℚ)), if_pos (by norm_num : (5 : ℚ) < 10)]
  · unfold decileIdx
    rw [show ([(5 : ℚ), 10]).enum = [(0, (5 : ℚ)), (1, 10)] from rfl]
    rw [List.foldl_cons, List.foldl_cons, List.foldl_nil]
    rw [if_neg (lt_irrefl (5 : ℚ)), if_neg (by norm_num : ¬ (10 : ℚ) < 5)]

/-- C1 amended: the fixed generator (generate_pngs_fixed.py) computes
pixel coordinates by linear interpolation with divisors H-1 and W-1, so
pixel (0,0) maps exactly to (north, west) and pixel (H-1, W-1) exactly
to (south, east); the earlier generate_pngs.py divides by H and W
instead and misses the south and east edges. -/
theorem C1_pixel_bounds_inversion (latMax latMin lngMin lngMax : ℚ)
    (hImg wImg : ℕ) (hH : 2 ≤ hImg) (hW : 2 ≤ wImg) :
    pixLat latMax latMin hImg 0 = latMax ∧
      pixLat latMax latMin hImg (hImg - 1) = latMin ∧
      pixLng lngMin lngMax wImg 0 = lngMin ∧
      pixLng lngMin lngMax wImg (wImg - 1) = lngMax := by
  have hcastH : ((hImg - 1 : ℕ) : ℚ) = (hImg : ℚ) - 1 := by
    rw [Nat.cast_sub (by omega : 1 ≤ hImg)]
    norm_num
  have hcastW : ((wImg - 1 : ℕ) : ℚ) = (wImg : ℚ) - 1 := by
    rw [Nat.cast_sub (by omega : 1 ≤ wImg)]
    norm_num
  have hneH : (hImg : ℚ) - 1 ≠ 0 := by
    have : (2 : ℚ) ≤ (hImg : ℚ) := by exact_mod_cast hH
    intro hcontra
    linarith
  have hneW : (wImg : ℚ) - 1 ≠ 0 := by
    have : (2 : ℚ) ≤ (wImg : ℚ) := by exact_mod_cast hW
    intro hcontra
    linarith
  refine ⟨?_, ?_, ?_, ?_⟩
  · unfold pixLat
    norm_num
  · unfold pixLat
    rw [hcastH, div_self hneH]
    ring
  · unfold pixLng
    norm_num
  · unfold pixLng
    rw [hcastW, div_self hneW]
    ring

/-- Witness for C1 amended at the concrete 2000 x 3000 image and the
geographic bounds of generate_pngs.py. -/
theorem C1_pixel_bounds_inversion_witness :
    pixLat 61 (99/2) 3000 0 = 61 ∧ pixLat 61 (99/2) 3000 (3000 - 1) = 99/2 ∧
      pixLng (-17/2) 2 2000 0 = -17/2 ∧ pixLng (-17/2) 2 2000 (2000 - 1) = 2 :=
  C1_pixel_bounds_inversion 61 (99/2) (-17/2) 2 3000 2000
    (by norm_num) (by norm_num)

/-- C1 counterexample: with the divisor IMG_HEIGHT used by
generate_pngs.py, the bottom pixel row H-1 = 2999 maps to a latitude
that differs from the declared south edge 49.5 by 23/6000 of a degree,
far more than the 1e-9 tolerance — so the claimed inversion property
fails for that generator. -/
theorem C1_divisor_off_by_one_counterexample :
    pixLatOld (IMG_HEIGHT - 1) - LAT_MIN_gp = 23/6000 ∧
      (1 : ℚ)/1000000000 < 23/6000 := by
  constructor
  · unfold pixLatOld LAT_MAX_gp LAT_MIN_gp IMG_HEIGHT
    norm_num
  · norm_num

/-- C2 amended: in generate_pngs_fixed.py the saved image is exactly the
filled buffer (no flip step), and its pixel-row-to-latitude map sends
row 0 to the north edge and row H-1 to the south edge of the declared
bounds.  (process_temperature.py and the rain/sun writer of
generate_pngs_old_broken.py do apply a flip; see the counterexample.) -/
theorem C2_fixed_row_zero_is_north (img : List (List (ℕ × ℕ × ℕ × ℕ)))
    (latMax latMin : ℚ) (hImg : ℕ) (hH : 2 ≤ hImg) :
    save_image_fixed img = img ∧
      pixLat latMax latMin hImg 0 = latMax ∧
      pixLat latMax latMin hImg (hImg - 1) = latMin := by
  refine ⟨rfl, ?_, ?_⟩
  · unfold pixLat
    norm_num
  · unfold pixLat
    rw [Nat.cast_sub (by omega : 1 ≤ hImg)]
    norm_num
    rw [div_self (by
      have : (2 : ℚ) ≤ (hImg : ℚ) := by exact_mod_cast hH
      intro hcontra
      linarith)]
    ring

/-- Witness for C2 amended at a concrete 2-row buffer and 3000-row
bounds mapping. -/
theorem C2_fixed_row_zero_is_north_witness :
    save_image_fixed [[(1, 2, 3, 255)], [(4, 5, 6, 255)]] =
        [[(1, 2, 3, 255)], [(4, 5, 6, 255)]] ∧
      pixLat 61 (99/2) 3000 0 = 61 ∧ pixLat 61 (99/2) 3000 (3000 - 1) = 99/2 :=
  C2_fixed_row_zero_is_north [[(1, 2, 3, 255)], [(4, 5, 6, 255)]]
    61 (99/2) 3000 (by norm_num)

/-- C2 counterexample: the rain/sun writer of
generate_pngs_old_broken.py applies a vertical flip between filling the
buffer and writing the file — the saved image of a concrete 2-row
buffer has its rows reversed, so it is not the filled buffer, and the
row filled for the north edge is written last instead of first. -/
theorem C2_flip_step_counterexample :
    save_rain_sun_old_broken [[(0, 0, 0, 0)], [(9, 9, 9, 255)]] =
        [[(9, 9, 9, 255)], [(0, 0, 0, 0)]] ∧
      ([[(9, 9, 9, 255)], [(0, 0, 0, 0)]] : List (List (ℕ × ℕ × ℕ × ℕ))) ≠
        [[(0, 0, 0, 0)], [(9, 9, 9, 255)]] := by
  constructor
  · rfl
  · decide

/-- C3 amended: in the leaflet PNG generators a pixel whose reprojection
fails, whose nearest source cell is missing, or (bivariate) where either
of the rain/sun pair is missing, is written with alpha = 0, never with a
substituted zero value.  (process_temperature.py instead writes missing
cells as opaque white in a no-alpha image; see the counterexample.) -/
theorem C3_missing_data_transparent :
    (∀ (tfm : Tfm) (data : Sparse2) (lat lng : ℚ),
      (tfm (lng, lat) = none ∨
        ∀ p, tfm (lng, lat) = some p → lookupKeyed data p.1 p.2 = none) →
      alphaOf (temp_pixel tfm data lat lng) = 0) ∧
    (∀ (tfm : Tfm) (rain sun : Sparse2) (r33 r66 s33 s66 lat lng : ℚ),
      (tfm (lng, lat) = none ∨
        ∀ p, tfm (lng, lat) = some p →
          (lookupKeyed rain p.1 p.2 = none ∨ lookupKeyed sun p.1 p.2 = none)) →
      alphaOf (rain_sun_pixel tfm rain sun r33 r66 s33 s66 lat lng) = 0) := by
  constructor
  · intro tfm data lat lng hmiss
    unfold temp_pixel
    split
    · rfl
    next p htf =>
      split
      next t hlk =>
        rcases hmiss with hnone | hl
        · rw [htf] at hnone
          exact absurd hnone (Option.some_ne_none p)
        · rw [hl p htf] at hlk
          cases hlk
      next hlk => rfl
  · intro tfm rain sun r33 r66 s33 s66 lat lng hmiss
    unfold rain_sun_pixel
    split
    · rfl
    next p htf =>
      split
      next r s hlkr hlks =>
        rcases hmiss with hnone | hl
        · rw [htf] at hnone
          exact absurd hnone (Option.some_ne_none p)
        · rcases hl p htf with hr | hs
          · rw [hr] at hlkr
            cases hlkr
          · rw [hs] at hlks
            cases hlks
      next hother => rfl

/-- Witness for C3 amended: with a transform that fails everywhere and
empty sparse data, both pixel kinds come out fully transparent. -/
theorem C3_missing_data_transparent_witness :
    alphaOf (temp_pixel (fun _ => none) emptySparse2 0 0) = 0 ∧
      alphaOf (rain_sun_pixel (fun _ => none) emptySparse2 emptySparse2
        0 0 0 0 0 0) = 0 :=
  ⟨C3_missing_data_transparent.1 (fun _ => none) emptySparse2 0 0 (Or.inl rfl),
   C3_missing_data_transparent.2 (fun _ => none) emptySparse2 emptySparse2
     0 0 0 0 0 0 (Or.inl rfl)⟩

theorem npPercentile_single (v q : ℚ) : npPercentile [v] q = v := by
  unfold npPercentile
  norm_num [List.insertionSort, List.getD]

/-- C3 counterexample: in process_temperature.py, a 1 x 2 frame whose
second cell is missing is written as an opaque image — the missing
cell comes out as opaque white (255, 255, 255, 255) with alpha 255, not
as a transparent pixel with alpha 0. -/
theorem C3_opaque_white_counterexample :
    save_temp_image (create_temp_rgb_array [[some 15, none]] TEMP_COLORS_RGBFRAC) =
      [[(5, 48, 97, 255), (255, 255, 255, 255)]] ∧ (255 : ℕ) ≠ 0 := by
  refine ⟨?_, by norm_num⟩
  have hvalid : (([[some (15 : ℚ), none]]).flatten).filterMap id = [15] := by
    simp
  have hball : ∀ b ∈ decileBounds [(15 : ℚ)], ¬ b < 15 := by
    intro b hb
    simp only [decileBounds, List.mem_map] at hb
    rcases hb with ⟨i, _, hbi⟩
    rw [npPercentile_single] at hbi
    rw [← hbi]
    exact lt_irrefl 15
  have hidx : decileIdx (decileBounds [(15 : ℚ)]) 15 = 0 := by
    unfold decileIdx
    rw [show (decileBounds [(15 : ℚ)]).enum = List.enumFrom 0 (decileBounds [15])
      from rfl]
    exact decile_foldl_const 15 _ 0 0 hball
  unfold create_temp_rgb_array
  rw [hvalid]
  rw [if_neg (by norm_num)]
  unfold flipud
  simp only [List.map_cons, List.map_nil, List.reverse_cons, List.reverse_nil,
    List.nil_append]
  rw [hidx]
  unfold save_temp_image to255 TEMP_COLORS_RGBFRAC TEMP_COLORS
  norm_num [List.getD, pyint]
  omega

theorem fold_skip_all_none (frame : Frame) :
    ∀ (cells : List (ℕ × ℕ)) (m : Sparse2),
      (∀ rc ∈ cells, frame rc.1 rc.2 = none) →
      cells.foldl (serializeStep frame) m = m := by
  intro cells
  induction cells with
  | nil => intro m _; rfl
  | cons rc t ih =>
    intro m hall
    rw [List.foldl_cons]
    have h1 : serializeStep frame m rc = m := by
      unfold serializeStep
      rw [hall rc (List.mem_cons_self rc t)]
    rw [h1]
    exact ih m (fun rc' hrc' => hall rc' (List.mem_cons_of_mem rc hrc'))

theorem validCells_all_none (frame : Frame) (h w : ℕ)
    (hnone : ∀ row col, row < h → col < w → frame row col = none) :
    validCells frame h w = [] := by
  unfold validCells
  rw [List.filterMap_eq_nil_iff]
  intro rc hrc
  have hmem := (mem_cellList h w rc.1 rc.2).mp (by simpa using hrc)
  exact hnone rc.1 rc.2 hmem.1 hmem.2

/-- C9 amended: on a frame with zero valid values the pipeline does not
fail, but it does not produce an all-transparent image with degenerate
breakpoints either.  In generate_pngs_fixed.py such a frame serializes
to an empty dictionary, the load guard treats the empty dictionary as
falsy, and the month is skipped with no image written; consequently the
degenerate default breakpoints (0, 0) that the code would fall back to
for an empty value list are unreachable for serializer-produced data.
(process_temperature.py returns an all-white opaque image rather than
an all-transparent one — see the counterexample — and the percentile
computation of generate_overlay_images.py has no empty-frame guard.) -/
theorem C9_empty_frame_skip :
    (∀ (tfm : Tfm) (frameR frameS : Frame) (h w : ℕ),
      (∀ row col, row < h → col < w → frameR row col = none) →
      rain_sun_month tfm frameR frameS h w = none) ∧
    (∀ (frame : Frame) (h w : ℕ),
      (∀ row col, row < h → col < w → frame row col = none) →
      serializeFrame frame h w = emptySparse2) ∧
    tertile_breaks [] = (0, 0) := by
  refine ⟨?_, ?_, rfl⟩
  · intro tfm frameR frameS h w hnone
    unfold rain_sun_month
    rw [validCells_all_none frameR h w hnone]
    rfl
  · intro frame h w hnone
    unfold serializeFrame
    apply fold_skip_all_none
    intro rc hrc
    have hmem := (mem_cellList h w rc.1 rc.2).mp (by simpa using hrc)
    exact hnone rc.1 rc.2 hmem.1 hmem.2

/-- Witness for C9 amended at a concrete all-missing 1 x 1 frame: the
month run produces no image and the serialization is the empty
dictionary. -/
theorem C9_empty_frame_skip_witness :
    rain_sun_month (fun p => some p) (fun _ _ => none) (fun _ _ => none) 1 1 = none ∧
      serializeFrame (fun _ _ => none) 1 1 = emptySparse2 :=
  ⟨C9_empty_frame_skip.1 (fun p => some p) (fun _ _ => none) (fun _ _ => none) 1 1
     (fun _ _ _ _ => rfl),
   C9_empty_frame_skip.2.1 (fun _ _ => none) 1 1 (fun _ _ _ _ => rfl)⟩

/-- C9 counterexample: on an all-missing frame, process_temperature.py
produces an all-white opaque image — the single pixel is
(255, 255, 255, 255) with alpha 255 — rather than an all-transparent
output. -/
theorem C9_all_white_counterexample :
    save_temp_image (create_temp_rgb_array [[none]] TEMP_COLORS_RGBFRAC) =
      [[(255, 255, 255, 255)]] ∧ (255 : ℕ) ≠ 0 := by
  refine ⟨?_, by norm_num⟩
  unfold create_temp_rgb_array
  rw [if_pos (by simp)]
  unfold save_temp_image to255
  norm_num [pyint]
  omega
